import Mathlib

/-!
Verification of the wallet-connection abstraction layer of the
`rn-concordium-deeplink` repository (`src/app.tsx`, the
`react-native-components` module).

The pure encoding helpers (`schemaAsBuffer`, `messageAsBuffer` and the
schema/message constructors built on them) decode strings via
`toBuffer(s, enc)` from `@concordium/web-sdk`, which is `Buffer.from`
of the `buffer/` (feross) package, and re-encode via
`Buffer.prototype.toString(enc)`.  Those library routines are modelled
here byte-for-byte: base64 decoding is the composition of `base64clean`
with `base64-js`'s `toByteArray`, base64 encoding is `base64-js`'s
`fromByteArray`, hex decoding parses digit pairs and stops at the first
invalid pair, and hex encoding prints lowercase digit pairs.

Buffers are modelled as lists of byte values (`List Nat`, each element
`< 256`); the decoders only ever produce values `< 256`, mirroring the
`& 0xFF` masks in the JavaScript sources.  Functions that `throw` are
modelled in `Except String`.
-/

/-- A list of naturals is a byte buffer when every element fits in a byte. -/
def IsBytes (l : List Nat) : Prop :=
  ∀ x ∈ l, x < 256

instance (l : List Nat) : Decidable (IsBytes l) :=
  inferInstanceAs (Decidable (∀ x ∈ l, x < 256))

/-! ### Model of base64 encoding/decoding (`buffer/` + `base64-js`) -/

/-- The base64 alphabet (`lookup` table of `base64-js`). -/
def b64Alphabet : List Char :=
  "ABCDEFGHIJKLMNOPQRSTUVWXYZabcdefghijklmnopqrstuvwxyz0123456789+/".toList

/-- The character the `base64-js` `lookup` table assigns to a sextet value. -/
def b64Char (n : Nat) : Char :=
  b64Alphabet.getD n 'A'

/-- The `revLookup` table of `base64-js`: sextet value of a base64 character
(URL-safe variants `-` and `_` included).  Characters outside the table are
never reached after `base64clean`; the model maps them to `0`. -/
def b64Value (c : Char) : Nat :=
  if 65 ≤ c.toNat ∧ c.toNat ≤ 90 then c.toNat - 65
  else if 97 ≤ c.toNat ∧ c.toNat ≤ 122 then c.toNat - 97 + 26
  else if 48 ≤ c.toNat ∧ c.toNat ≤ 57 then c.toNat - 48 + 52
  else if c = '+' ∨ c = '-' then 62
  else if c = '/' ∨ c = '_' then 63
  else 0

/-- Characters kept by `base64clean` of `buffer/`: the complement of its
invalid-character class (everything other than `+`, `/`, digits, letters,
`-` and `_` is stripped). -/
def isB64Char (c : Char) : Bool :=
  c == '+' || c == '/' ||
    (decide ('0' ≤ c) && decide (c ≤ '9')) ||
    (decide ('A' ≤ c) && decide (c ≤ 'Z')) ||
    (decide ('a' ≤ c) && decide (c ≤ 'z')) ||
    c == '-' || c == '_'

/-- Model of `base64clean` of `buffer/`: keep the part before the first `=`
(Node takes `=` as end of the encoding), strip characters outside the
base64 alphabet, return the empty string when fewer than two characters
remain, and otherwise pad with `=` to a multiple of four. -/
def base64clean (s : List Char) : List Char :=
  let s1 := (s.takeWhile (fun c => c != '=')).filter isB64Char
  if s1.length < 2 then []
  else s1 ++ List.replicate ((4 - s1.length % 4) % 4) '='

/-- Decoding loop of `base64-js`'s `toByteArray` over the characters before
the padding: full groups of four characters yield three bytes
(`(tmp >> 16) & 0xFF`, `(tmp >> 8) & 0xFF`, `tmp & 0xFF`); a remainder of
two characters yields one byte, a remainder of three yields two bytes, and
a remainder of one yields nothing. -/
def b64DecodeBody : List Char → List Nat
  | c1 :: c2 :: c3 :: c4 :: rest =>
    let t := b64Value c1 * 262144 + b64Value c2 * 4096 + b64Value c3 * 64 + b64Value c4
    t / 65536 % 256 :: t / 256 % 256 :: t % 256 :: b64DecodeBody rest
  | [c1, c2] =>
    [(b64Value c1 * 4 + b64Value c2 / 16) % 256]
  | [c1, c2, c3] =>
    let t := b64Value c1 * 1024 + b64Value c2 * 16 + b64Value c3 / 4
    [t / 256 % 256, t % 256]
  | _ => []

/-- Model of `base64-js`'s `toByteArray`: decode the characters before the
`=` padding. -/
def toByteArray (s : List Char) : List Nat :=
  b64DecodeBody (s.takeWhile (fun c => c != '='))

/-- Model of `toBuffer(s, 'base64')` (`Buffer.from(s, 'base64')` of
`buffer/`): clean the input, then decode it. -/
def toBufferBase64 (s : String) : List Nat :=
  toByteArray (base64clean s.toList)

/-- Model of `base64-js`'s `fromByteArray`: encode full groups of three
bytes as four characters; a trailing single byte becomes two characters
plus `==`, a trailing pair becomes three characters plus `=`. -/
def b64EncodeBytes : List Nat → List Char
  | [] => []
  | [b1] =>
    [b64Char (b1 / 4), b64Char (b1 * 16 % 64), '=', '=']
  | [b1, b2] =>
    [b64Char ((b1 * 256 + b2) / 1024), b64Char ((b1 * 256 + b2) / 16 % 64),
      b64Char ((b1 * 256 + b2) * 4 % 64), '=']
  | b1 :: b2 :: b3 :: rest =>
    b64Char ((b1 * 65536 + b2 * 256 + b3) / 262144)
      :: b64Char ((b1 * 65536 + b2 * 256 + b3) / 4096 % 64)
      :: b64Char ((b1 * 65536 + b2 * 256 + b3) / 64 % 64)
      :: b64Char ((b1 * 65536 + b2 * 256 + b3) % 64)
      :: b64EncodeBytes rest

/-- Model of `buf.toString('base64')` of `buffer/` (its `base64Slice`). -/
def toStringBase64 (b : List Nat) : String :=
  List.asString (b64EncodeBytes b)

/-- A string is a canonical base64 encoding when it is the encoding of some
byte buffer. -/
def IsCanonicalBase64 (s : String) : Prop :=
  ∃ b, IsBytes b ∧ toStringBase64 b = s

/-! ### Model of hex encoding/decoding (`buffer/`) -/

/-- Value of a hexadecimal digit character, accepting both cases, `none` on
any other character (the hex digit table of `buffer/`). -/
def hexVal (c : Char) : Option Nat :=
  if 48 ≤ c.toNat ∧ c.toNat ≤ 57 then some (c.toNat - 48)
  else if 97 ≤ c.toNat ∧ c.toNat ≤ 102 then some (c.toNat - 87)
  else if 65 ≤ c.toNat ∧ c.toNat ≤ 70 then some (c.toNat - 55)
  else none

/-- Lowercase hexadecimal digit for a value below 16 (the alphabet used by
`buffer/`'s `hexSlice`). -/
def hexDigit (n : Nat) : Char :=
  "0123456789abcdef".toList.getD n '0'

/-- Model of `hexWrite` of `buffer/` as used by `Buffer.from(s, 'hex')`:
decode digit pairs into bytes, stopping at the first invalid pair; a
trailing lone character is never decoded (the buffer holds
`length >>> 1` bytes and `Buffer.from` truncates to what was written). -/
def hexWrite : List Char → List Nat
  | c1 :: c2 :: rest =>
    match hexVal c1, hexVal c2 with
    | some a, some b => (a * 16 + b) :: hexWrite rest
    | _, _ => []
  | _ => []

/-- Model of `toBuffer(s, 'hex')` (`Buffer.from(s, 'hex')` of `buffer/`). -/
def toBufferHex (s : String) : List Nat :=
  hexWrite s.toList

/-- Model of `buf.toString('hex')` of `buffer/` (its `hexSlice`): two
lowercase digits per byte. -/
def hexEncodeBytes : List Nat → List Char
  | [] => []
  | b :: rest => hexDigit (b / 16) :: hexDigit (b % 16) :: hexEncodeBytes rest

/-- Model of `buf.toString('hex')` returning a string. -/
def toStringHex (b : List Nat) : String :=
  List.asString (hexEncodeBytes b)

/-- A string is a canonical hex encoding when it is the encoding of some
byte buffer (hence lowercase and of even length). -/
def IsCanonicalHex (s : String) : Prop :=
  ∃ b, IsBytes b ∧ toStringHex b = s

/-! ### The schema and message types of `app.tsx` -/

/-- The `SchemaVersion` enum of `@concordium/node-sdk` (`V0 = 0`, `V1 = 1`). -/
inductive SchemaVersion
  | V0
  | V1
deriving DecidableEq, Repr

/-- `ModuleSchema` record of `app.tsx` (lines 89-93): discriminant tag, raw
schema bytes, and an optional schema version. -/
structure ModuleSchema where
  type : String
  value : List Nat
  version : Option SchemaVersion
deriving DecidableEq, Repr

/-- `TypeSchema` record of `app.tsx` (lines 94-97). -/
structure TypeSchema where
  type : String
  value : List Nat
deriving DecidableEq, Repr

/-- Discriminated union `Schema = ModuleSchema | TypeSchema` of `app.tsx`. -/
inductive Schema
  | ofModule (m : ModuleSchema)
  | ofType (t : TypeSchema)
deriving DecidableEq, Repr

/-- `moduleSchema` of `app.tsx` (lines 123-132). -/
def moduleSchema (schema : List Nat) (version : Option SchemaVersion) : ModuleSchema :=
  { type := "ModuleSchema", value := schema, version := version }

/-- `typeSchema` of `app.tsx` (lines 147-152). -/
def typeSchema (schema : List Nat) : TypeSchema :=
  { type := "TypeSchema", value := schema }

/-- `schemaAsBuffer` of `app.tsx` (lines 154-161): decode the base64 input
and require that re-encoding reproduces it exactly, otherwise throw. -/
def schemaAsBuffer (schemaBase64 : String) : Except String (List Nat) :=
  let res := toBufferBase64 schemaBase64
  if toStringBase64 res ≠ schemaBase64 then
    Except.error "provided schema is not valid base64"
  else
    Except.ok res

/-- `moduleSchemaFromBase64` of `app.tsx` (lines 111-116). -/
def moduleSchemaFromBase64 (schemaBase64 : String) (version : Option SchemaVersion) :
    Except String ModuleSchema :=
  (schemaAsBuffer schemaBase64).map (fun b => moduleSchema b version)

/-- `typeSchemaFromBase64` of `app.tsx` (lines 139-141). -/
def typeSchemaFromBase64 (schemaBase64 : String) : Except String TypeSchema :=
  (schemaAsBuffer schemaBase64).map typeSchema

/-- `StringMessage` record of `app.tsx` (lines 168-171). -/
structure StringMessage where
  type : String
  value : String
deriving DecidableEq, Repr

/-- `BinaryMessage` record of `app.tsx` (lines 172-176). -/
structure BinaryMessage where
  type : String
  value : List Nat
  schema : TypeSchema
deriving DecidableEq, Repr

/-- Discriminated union `SignableMessage = StringMessage | BinaryMessage`
of `app.tsx`. -/
inductive SignableMessage
  | ofString (m : StringMessage)
  | ofBinary (m : BinaryMessage)
deriving DecidableEq, Repr

/-- `stringMessage` of `app.tsx` (lines 187-192). -/
def stringMessage (msg : String) : StringMessage :=
  { type := "StringMessage", value := msg }

/-- `messageAsBuffer` of `app.tsx` (lines 210-217): decode the hex input and
require that re-encoding reproduces it exactly, otherwise throw. -/
def messageAsBuffer (msgHex : String) : Except String (List Nat) :=
  let res := toBufferHex msgHex
  if toStringHex res ≠ msgHex then
    Except.error "provided message is not valid hex"
  else
    Except.ok res

/-- `binaryMessageFromHex` of `app.tsx` (lines 199-208). -/
def binaryMessageFromHex (msgHex : String) (schema : TypeSchema) :
    Except String BinaryMessage :=
  (messageAsBuffer msgHex).map
    (fun value => { type := "BinaryMessage", value := value, schema := schema })

/-! ### The wallet-connection layer of `app.tsx` -/

/-- Error taxonomy of the wallet layer, following section 7 of the design
notes: rejected async results carry one of these values. -/
inductive WalletError
  | encodingError (msg : String)
  | unsupportedOperation (msg : String)
  | userRejected (msg : String)
  | transportError (msg : String)
  | preconditionViolation (msg : String)
deriving DecidableEq, Repr

/-- The JSON-RPC client handed out by `getJsonRpcClient`; only its identity
matters to the contracts verified here, so it is modelled as a record
holding the proxy URL it was initialized with. -/
structure JsonRpcClient where
  url : String
deriving DecidableEq, Repr

/-- The subset of the `AccountTransactionType` enum of
`@concordium/node-sdk` relevant to the verified contracts; `InitContract`
and `Update` are the contract init/update transaction types. -/
inductive AccountTransactionType
  | DeployModule
  | InitContract
  | Update
  | Transfer
  | RegisterData
deriving DecidableEq, Repr

/-- Model of `SmartContractParameters` (a plain JavaScript object of named
fields from `@concordium/browser-wallet-api-helpers`); only emptiness of
the parameters matters to the verified contracts. -/
structure SmartContractParameters where
  fields : List (String × String)
deriving DecidableEq, Repr

/-- A contract invocation has empty parameters when its parameter object
has no fields. -/
def SmartContractParameters.isEmpty (p : SmartContractParameters) : Bool :=
  p.fields.isEmpty

/-- `TypedSmartContractParameters` of `app.tsx` (lines 163-166). -/
structure TypedSmartContractParameters where
  parameters : SmartContractParameters
  schema : Schema
deriving DecidableEq, Repr

/-- Model of `SendTransactionPayload`: the transaction payload excluding
contract parameters; its internal structure is irrelevant to the verified
contracts, so it is kept as a record of named fields. -/
structure SendTransactionPayload where
  fields : List (String × String)
deriving DecidableEq, Repr

/-- Model of `AccountTransactionSignature` of `@concordium/node-sdk`: a
signature collection keyed per credential. -/
def AccountTransactionSignature : Type :=
  List (Nat × List (Nat × String))

/-- Shallow model of the `WalletConnection` interface of `app.tsx`
(lines 228-313): each operation is modelled by the result it settles to.
`getConnector` is omitted as it is a mere back-reference (mutually
recursive with `WalletConnector`) that no verified contract touches. -/
structure WalletConnection where
  ping : Except WalletError Unit
  getJsonRpcClient : Except WalletError JsonRpcClient
  signAndSendTransaction : String → AccountTransactionType → SendTransactionPayload →
    Option TypedSmartContractParameters → Except WalletError String
  signMessage : String → SignableMessage → Except WalletError AccountTransactionSignature
  disconnect : Except WalletError Unit

/-- `withJsonRpcClient` of `app.tsx` (lines 462-467): the body is
`return f(connection.getJsonRpcClient())`, so the client resolution is
evaluated first — a throw there propagates and `f` is never invoked —
and otherwise the result of `f` on the resolved client is returned
unchanged. -/
def withJsonRpcClient {T : Type} (connection : WalletConnection)
    (f : JsonRpcClient → Except WalletError T) : Except WalletError T :=
  match connection.getJsonRpcClient with
  | Except.error e => Except.error e
  | Except.ok c => f c

/-- The contract-init/update transaction types of the `signAndSendTransaction`
documentation (`AccountTransactionType.InitContract` and
`AccountTransactionType.Update`). -/
def isContractInitOrUpdate : AccountTransactionType → Bool
  | AccountTransactionType.InitContract => true
  | AccountTransactionType.Update => true
  | _ => false

/-- Modelled from the spec: the repository only declares
`signAndSendTransaction` as an interface method (`app.tsx` lines 281-286);
the implementations live in external wallet backends.  The documented
precondition is that `typedParams` MUST be present for contract
init/update transaction types with non-empty parameters and MUST be
absent otherwise.  `invocationParams` stands for the parameters of the
intended contract invocation (empty for non-contract transactions); the
check rejects with a `preconditionViolation` whenever the supplied
`typedParams` is inconsistent with it. -/
def checkTypedParams (ty : AccountTransactionType)
    (invocationParams : SmartContractParameters)
    (typedParams : Option TypedSmartContractParameters) : Except WalletError Unit :=
  if isContractInitOrUpdate ty && !invocationParams.isEmpty then
    match typedParams with
    | some _ => Except.ok ()
    | none => Except.error (WalletError.preconditionViolation
        "typedParams must be provided for contract transactions with parameters")
  else
    match typedParams with
    | some _ => Except.error (WalletError.preconditionViolation
        "typedParams must not be provided here")
    | none => Except.ok ()

/-- Modelled from the spec: a conforming `signAndSendTransaction`
implementation fails fast on the `typedParams` precondition and only then
forwards the request to the protocol-specific wallet backend `submit`. -/
def signAndSendTransactionChecked
    (submit : String → AccountTransactionType → SendTransactionPayload →
      Option TypedSmartContractParameters → Except WalletError String)
    (accountAddress : String) (ty : AccountTransactionType)
    (payload : SendTransactionPayload)
    (invocationParams : SmartContractParameters)
    (typedParams : Option TypedSmartContractParameters) : Except WalletError String :=
  match checkTypedParams ty invocationParams typedParams with
  | Except.error e => Except.error e
  | Except.ok _ => submit accountAddress ty payload typedParams

/-! ### Helper lemmas about the codec model -/

/-- Every sextet value below 64 is mapped by the encoding table to a
character that the decoding table maps back, that survives `base64clean`,
and that is not the padding character. -/
theorem b64Char_spec : ∀ n : Fin 64,
    b64Value (b64Char n.val) = n.val
      ∧ isB64Char (b64Char n.val) = true
      ∧ (b64Char n.val != '=') = true := by
  decide

/-- Every value below 16 round-trips through the hex digit tables. -/
theorem hexDigit_spec : ∀ n : Fin 16, hexVal (hexDigit n.val) = some n.val := by
  decide

/-- The hex digit table only produces values below 16. -/
theorem hexVal_lt (c : Char) (a : Nat) (h : hexVal c = some a) : a < 16 := by
  unfold hexVal at h
  split_ifs at h with h1 h2 h3
  · injection h with h'
    omega
  · injection h with h'
    omega
  · injection h with h'
    omega

/-- The base64 decoding loop only produces byte values. -/
theorem b64DecodeBody_bytes : ∀ (cs : List Char), IsBytes (b64DecodeBody cs)
  | c1 :: c2 :: c3 :: c4 :: rest => by
    intro x hx
    simp only [b64DecodeBody, List.mem_cons] at hx
    rcases hx with h | h | h | h
    · subst h
      exact Nat.mod_lt _ (by omega)
    · subst h
      exact Nat.mod_lt _ (by omega)
    · subst h
      exact Nat.mod_lt _ (by omega)
    · exact b64DecodeBody_bytes rest x h
  | [] => by
    intro x hx
    simp [b64DecodeBody] at hx
  | [c1] => by
    intro x hx
    simp [b64DecodeBody] at hx
  | [c1, c2] => by
    intro x hx
    simp only [b64DecodeBody, List.mem_cons, List.not_mem_nil, or_false] at hx
    subst hx
    exact Nat.mod_lt _ (by omega)
  | [c1, c2, c3] => by
    intro x hx
    simp only [b64DecodeBody, List.mem_cons, List.not_mem_nil, or_false] at hx
    rcases hx with h | h
    · subst h
      exact Nat.mod_lt _ (by omega)
    · subst h
      exact Nat.mod_lt _ (by omega)

/-- The hex decoding loop only produces byte values. -/
theorem hexWrite_bytes : ∀ (cs : List Char), IsBytes (hexWrite cs)
  | c1 :: c2 :: rest => by
    intro x hx
    unfold hexWrite at hx
    cases h1 : hexVal c1 with
    | none =>
      rw [h1] at hx
      simp at hx
    | some a =>
      cases h2 : hexVal c2 with
      | none =>
        rw [h1, h2] at hx
        simp at hx
      | some b =>
        rw [h1, h2] at hx
        simp only [List.mem_cons] at hx
        rcases hx with h | h
        · have ha := hexVal_lt c1 a h1
          have hb := hexVal_lt c2 b h2
          omega
        · exact hexWrite_bytes rest x h
  | [] => by
    intro x hx
    simp [hexWrite] at hx
  | [c1] => by
    intro x hx
    simp [hexWrite] at hx

/-- The base64 decoder only produces byte buffers. -/
theorem toBufferBase64_bytes (s : String) : IsBytes (toBufferBase64 s) :=
  b64DecodeBody_bytes _

/-- The hex decoder only produces byte buffers. -/
theorem toBufferHex_bytes (s : String) : IsBytes (toBufferHex s) :=
  hexWrite_bytes _

/-- Structure of an encoded byte buffer: the output of the encoder is a
run of alphabet characters followed by `=` padding, the decoder recovers
the bytes from the run, and the run has fewer than two characters only
for the empty buffer. -/
theorem b64Encode_split : ∀ (b : List Nat), IsBytes b →
    ∃ v p, b64EncodeBytes b = v ++ List.replicate p '='
      ∧ (∀ c ∈ v, isB64Char c = true ∧ (c != '=') = true)
      ∧ b64DecodeBody v = b
      ∧ (v.length < 2 → b = [])
  | [], _ =>
    ⟨[], 0, rfl, by simp, rfl, fun _ => rfl⟩
  | [b1], h => by
    have hb1 : b1 < 256 := h b1 (by simp)
    have h1 : b1 / 4 < 64 := by omega
    have h2 : b1 * 16 % 64 < 64 := Nat.mod_lt _ (by omega)
    have s1 := b64Char_spec ⟨b1 / 4, h1⟩
    have s2 := b64Char_spec ⟨b1 * 16 % 64, h2⟩
    refine ⟨[b64Char (b1 / 4), b64Char (b1 * 16 % 64)], 2, rfl, ?_, ?_, ?_⟩
    · intro c hc
      simp only [List.mem_cons, List.not_mem_nil, or_false] at hc
      rcases hc with rfl | rfl
      · exact ⟨s1.2.1, s1.2.2⟩
      · exact ⟨s2.2.1, s2.2.2⟩
    · simp only [b64DecodeBody, s1.1, s2.1, List.cons.injEq, and_true]
      omega
    · intro hlt
      simp at hlt
  | [b1, b2], h => by
    have hb1 : b1 < 256 := h b1 (by simp)
    have hb2 : b2 < 256 := h b2 (by simp)
    have h1 : (b1 * 256 + b2) / 1024 < 64 := by omega
    have h2 : (b1 * 256 + b2) / 16 % 64 < 64 := Nat.mod_lt _ (by omega)
    have h3 : (b1 * 256 + b2) * 4 % 64 < 64 := Nat.mod_lt _ (by omega)
    have s1 := b64Char_spec ⟨(b1 * 256 + b2) / 1024, h1⟩
    have s2 := b64Char_spec ⟨(b1 * 256 + b2) / 16 % 64, h2⟩
    have s3 := b64Char_spec ⟨(b1 * 256 + b2) * 4 % 64, h3⟩
    refine ⟨[b64Char ((b1 * 256 + b2) / 1024), b64Char ((b1 * 256 + b2) / 16 % 64),
      b64Char ((b1 * 256 + b2) * 4 % 64)], 1, rfl, ?_, ?_, ?_⟩
    · intro c hc
      simp only [List.mem_cons, List.not_mem_nil, or_false] at hc
      rcases hc with rfl | rfl | rfl
      · exact ⟨s1.2.1, s1.2.2⟩
      · exact ⟨s2.2.1, s2.2.2⟩
      · exact ⟨s3.2.1, s3.2.2⟩
    · simp only [b64DecodeBody, s1.1, s2.1, s3.1, List.cons.injEq, and_true]
      constructor
      · omega
      · omega
    · intro hlt
      simp at hlt
  | b1 :: b2 :: b3 :: rest, h => by
    have hb1 : b1 < 256 := h b1 (by simp)
    have hb2 : b2 < 256 := h b2 (by simp)
    have hb3 : b3 < 256 := h b3 (by simp)
    obtain ⟨v, p, henc, hval, hdec, hlen⟩ :=
      b64Encode_split rest (fun x hx => h x (by simp [hx]))
    have h1 : (b1 * 65536 + b2 * 256 + b3) / 262144 < 64 := by omega
    have h2 : (b1 * 65536 + b2 * 256 + b3) / 4096 % 64 < 64 := Nat.mod_lt _ (by omega)
    have h3 : (b1 * 65536 + b2 * 256 + b3) / 64 % 64 < 64 := Nat.mod_lt _ (by omega)
    have h4 : (b1 * 65536 + b2 * 256 + b3) % 64 < 64 := Nat.mod_lt _ (by omega)
    have s1 := b64Char_spec ⟨(b1 * 65536 + b2 * 256 + b3) / 262144, h1⟩
    have s2 := b64Char_spec ⟨(b1 * 65536 + b2 * 256 + b3) / 4096 % 64, h2⟩
    have s3 := b64Char_spec ⟨(b1 * 65536 + b2 * 256 + b3) / 64 % 64, h3⟩
    have s4 := b64Char_spec ⟨(b1 * 65536 + b2 * 256 + b3) % 64, h4⟩
    refine ⟨b64Char ((b1 * 65536 + b2 * 256 + b3) / 262144)
        :: b64Char ((b1 * 65536 + b2 * 256 + b3) / 4096 % 64)
        :: b64Char ((b1 * 65536 + b2 * 256 + b3) / 64 % 64)
        :: b64Char ((b1 * 65536 + b2 * 256 + b3) % 64) :: v, p, ?_, ?_, ?_, ?_⟩
    · show b64EncodeBytes (b1 :: b2 :: b3 :: rest) = _
      rw [b64EncodeBytes, henc]
      simp [List.cons_append]
    · intro c hc
      simp only [List.mem_cons] at hc
      rcases hc with rfl | rfl | rfl | rfl | hc
      · exact ⟨s1.2.1, s1.2.2⟩
      · exact ⟨s2.2.1, s2.2.2⟩
      · exact ⟨s3.2.1, s3.2.2⟩
      · exact ⟨s4.2.1, s4.2.2⟩
      · exact hval c hc
    · simp only [b64DecodeBody, s1.1, s2.1, s3.1, s4.1, hdec, List.cons.injEq, and_true]
      refine ⟨?_, ?_, ?_⟩
      · omega
      · omega
      · omega
    · intro hlt
      simp only [List.length_cons] at hlt
      exact absurd hlt (by omega)

/-- Decoding a canonically encoded byte buffer recovers the buffer:
`Buffer.from(buf.toString('base64'), 'base64')` is the identity. -/
theorem toBufferBase64_roundtrip (b : List Nat) (hb : IsBytes b) :
    toBufferBase64 (toStringBase64 b) = b := by
  obtain ⟨v, p, henc, hval, hdec, hlen⟩ := b64Encode_split b hb
  have htake : ∀ q, List.takeWhile (fun c => c != '=') (v ++ List.replicate q '=') = v := by
    intro q
    rw [List.takeWhile_append_of_pos (fun c hc => (hval c hc).2), List.takeWhile_replicate]
    simp
  have hfilter : v.filter isB64Char = v :=
    List.filter_eq_self.mpr (fun c hc => (hval c hc).1)
  have hclean : base64clean (b64EncodeBytes b)
      = if v.length < 2 then [] else v ++ List.replicate ((4 - v.length % 4) % 4) '=' := by
    rw [henc]
    unfold base64clean
    rw [htake p, hfilter]
  show toByteArray (base64clean (b64EncodeBytes b)) = b
  rw [hclean]
  by_cases hv : v.length < 2
  · rw [if_pos hv, hlen hv]
    rfl
  · rw [if_neg hv]
    show b64DecodeBody (List.takeWhile _ _) = b
    rw [htake ((4 - v.length % 4) % 4)]
    exact hdec

/-- Decoding a canonically encoded byte buffer recovers the buffer:
`Buffer.from(buf.toString('hex'), 'hex')` is the identity. -/
theorem toBufferHex_roundtrip : ∀ (b : List Nat), IsBytes b →
    toBufferHex (toStringHex b) = b
  | [], _ => rfl
  | b1 :: rest, h => by
    have hb1 : b1 < 256 := h b1 (by simp)
    have e1 : hexVal (hexDigit (b1 / 16)) = some (b1 / 16) :=
      hexDigit_spec ⟨b1 / 16, by omega⟩
    have e2 : hexVal (hexDigit (b1 % 16)) = some (b1 % 16) :=
      hexDigit_spec ⟨b1 % 16, Nat.mod_lt _ (by omega)⟩
    have ih : hexWrite (hexEncodeBytes rest) = rest :=
      toBufferHex_roundtrip rest (fun x hx => h x (by simp [hx]))
    show hexWrite (hexDigit (b1 / 16) :: hexDigit (b1 % 16) :: hexEncodeBytes rest)
      = b1 :: rest
    simp only [hexWrite, e1, e2, ih, List.cons.injEq, and_true]
    omega

/-- On a canonical base64 input, `schemaAsBuffer` succeeds with the decoded
bytes, and re-encoding them reproduces the input. -/
theorem schemaAsBuffer_ok_of_canonical (s : String) (h : IsCanonicalBase64 s) :
    schemaAsBuffer s = Except.ok (toBufferBase64 s)
      ∧ toStringBase64 (toBufferBase64 s) = s := by
  obtain ⟨b, hb, henc⟩ := h
  have hdec : toBufferBase64 s = b := by
    rw [← henc]
    exact toBufferBase64_roundtrip b hb
  have hre : toStringBase64 (toBufferBase64 s) = s := by
    rw [hdec, henc]
  refine ⟨?_, hre⟩
  unfold schemaAsBuffer
  rw [if_neg (by simp [hre])]

/-- On a non-canonical input, `schemaAsBuffer` throws. -/
theorem schemaAsBuffer_error_of_not_canonical (s : String) (h : ¬ IsCanonicalBase64 s) :
    ∃ e, schemaAsBuffer s = Except.error e := by
  refine ⟨"provided schema is not valid base64", ?_⟩
  unfold schemaAsBuffer
  rw [if_pos ?_]
  intro heq
  exact h ⟨toBufferBase64 s, toBufferBase64_bytes s, heq⟩

/-- On a canonical hex input, `messageAsBuffer` succeeds with the decoded
bytes, and re-encoding them reproduces the input. -/
theorem messageAsBuffer_ok_of_canonical (s : String) (h : IsCanonicalHex s) :
    messageAsBuffer s = Except.ok (toBufferHex s)
      ∧ toStringHex (toBufferHex s) = s := by
  obtain ⟨b, hb, henc⟩ := h
  have hdec : toBufferHex s = b := by
    rw [← henc]
    exact toBufferHex_roundtrip b hb
  have hre : toStringHex (toBufferHex s) = s := by
    rw [hdec, henc]
  refine ⟨?_, hre⟩
  unfold messageAsBuffer
  rw [if_neg (by simp [hre])]

/-- On a non-canonical input, `messageAsBuffer` throws. -/
theorem messageAsBuffer_error_of_not_canonical (s : String) (h : ¬ IsCanonicalHex s) :
    ∃ e, messageAsBuffer s = Except.error e := by
  refine ⟨"provided message is not valid hex", ?_⟩
  unfold messageAsBuffer
  rw [if_pos ?_]
  intro heq
  exact h ⟨toBufferHex s, toBufferHex_bytes s, heq⟩

/-! ### The claims -/

/-- Claim C1: for every base64 string that is a canonical encoding,
`moduleSchemaFromBase64` succeeds and its `value` field re-encoded to
base64 equals the input exactly; for every string that is not canonical
base64 (invalid or non-canonically padded input included), it fails by
throwing.  The same decode/round-trip contract holds for
`typeSchemaFromBase64`. -/
theorem c1_schema_base64_roundtrip (s : String) (v : Option SchemaVersion) :
    (IsCanonicalBase64 s →
      (∃ m, moduleSchemaFromBase64 s v = Except.ok m ∧ toStringBase64 m.value = s)
      ∧ (∃ t, typeSchemaFromBase64 s = Except.ok t ∧ toStringBase64 t.value = s))
    ∧ (¬ IsCanonicalBase64 s →
      (∃ e, moduleSchemaFromBase64 s v = Except.error e)
      ∧ (∃ e, typeSchemaFromBase64 s = Except.error e)) := by
  constructor
  · intro h
    obtain ⟨hok, hre⟩ := schemaAsBuffer_ok_of_canonical s h
    refine ⟨⟨moduleSchema (toBufferBase64 s) v, ?_, hre⟩,
      ⟨typeSchema (toBufferBase64 s), ?_, hre⟩⟩
    · simp [moduleSchemaFromBase64, hok, Except.map]
    · simp [typeSchemaFromBase64, hok, Except.map]
  · intro h
    obtain ⟨e, he⟩ := schemaAsBuffer_error_of_not_canonical s h
    refine ⟨⟨e, ?_⟩, ⟨e, ?_⟩⟩
    · simp [moduleSchemaFromBase64, he, Except.map]
    · simp [typeSchemaFromBase64, he, Except.map]

/-- Witness for C1: `'AAE='` is canonical and round-trips through
`moduleSchemaFromBase64`; `'A'` is not canonical and is rejected. -/
theorem c1_schema_base64_roundtrip_witness :
    (∃ m, moduleSchemaFromBase64 "AAE=" none = Except.ok m
      ∧ toStringBase64 m.value = "AAE=")
    ∧ (∃ e, moduleSchemaFromBase64 "A" none = Except.error e) := by
  constructor
  · exact ((c1_schema_base64_roundtrip "AAE=" none).1 ⟨[0, 1], by decide, by decide⟩).1
  · refine ((c1_schema_base64_roundtrip "A" none).2 ?_).1
    rintro ⟨b, hb, he⟩
    have h1 : toBufferBase64 (toStringBase64 b) = b := toBufferBase64_roundtrip b hb
    rw [he] at h1
    have h2 : toBufferBase64 "A" = [] := by decide
    rw [h2] at h1
    rw [← h1] at he
    exact absurd he (by decide)

/-- Claim C2: for every canonical hex string, `binaryMessageFromHex`
succeeds and its `value` field re-encoded to hex equals the input exactly;
for every malformed hex string (one that is not the exact re-encoding of
any byte buffer), it fails by throwing a decoding error. -/
theorem c2_binary_message_hex_roundtrip (s : String) (schema : TypeSchema) :
    (IsCanonicalHex s →
      ∃ m, binaryMessageFromHex s schema = Except.ok m ∧ toStringHex m.value = s)
    ∧ (¬ IsCanonicalHex s →
      ∃ e, binaryMessageFromHex s schema = Except.error e) := by
  constructor
  · intro h
    obtain ⟨hok, hre⟩ := messageAsBuffer_ok_of_canonical s h
    refine ⟨{ type := "BinaryMessage", value := toBufferHex s, schema := schema }, ?_, hre⟩
    simp [binaryMessageFromHex, hok, Except.map]
  · intro h
    obtain ⟨e, he⟩ := messageAsBuffer_error_of_not_canonical s h
    refine ⟨e, ?_⟩
    simp [binaryMessageFromHex, he, Except.map]

/-- Witness for C2: `'00ff'` is canonical hex and round-trips through
`binaryMessageFromHex`; `'FF'` (uppercase, so not the re-encoding of any
buffer) is rejected. -/
theorem c2_binary_message_hex_roundtrip_witness :
    (∃ m, binaryMessageFromHex "00ff" (typeSchema []) = Except.ok m
      ∧ toStringHex m.value = "00ff")
    ∧ (∃ e, binaryMessageFromHex "FF" (typeSchema []) = Except.error e) := by
  constructor
  · exact (c2_binary_message_hex_roundtrip "00ff" (typeSchema [])).1
      ⟨[0, 255], by decide, by decide⟩
  · refine (c2_binary_message_hex_roundtrip "FF" (typeSchema [])).2 ?_
    rintro ⟨b, hb, he⟩
    have h1 : toBufferHex (toStringHex b) = b := toBufferHex_roundtrip b hb
    rw [he] at h1
    have h2 : toBufferHex "FF" = [255] := by decide
    rw [h2] at h1
    rw [← h1] at he
    exact absurd he (by decide)

/-- Claim C3: for every byte buffer and every optional version,
`typeSchema(bytes).type` is `'TypeSchema'` and `moduleSchema(bytes, v).type`
is `'ModuleSchema'`: the discriminant tag of each constructor is always the
corresponding variant name. -/
theorem c3_discriminant_correctness (b : List Nat) (v : Option SchemaVersion) :
    (typeSchema b).type = "TypeSchema" ∧ (moduleSchema b v).type = "ModuleSchema" :=
  ⟨rfl, rfl⟩

/-- Claim C4 (spec-modelled): the repository only declares
`signAndSendTransaction` as an interface method, so its precondition is
verified against the model `signAndSendTransactionChecked`: calling with a
contract init/update transaction type and non-empty contract parameters
but no `typedParams` is rejected as a precondition violation, and
supplying `typedParams` for non-contract transaction types or for
contract transactions with empty parameters is likewise rejected, before
anything reaches the wallet backend. -/
theorem c4_typed_params_precondition
    (submit : String → AccountTransactionType → SendTransactionPayload →
      Option TypedSmartContractParameters → Except WalletError String)
    (addr : String) (ty : AccountTransactionType) (payload : SendTransactionPayload)
    (params : SmartContractParameters) (tp : TypedSmartContractParameters) :
    (isContractInitOrUpdate ty = true → params.isEmpty = false →
      signAndSendTransactionChecked submit addr ty payload params none
        = Except.error (WalletError.preconditionViolation
            "typedParams must be provided for contract transactions with parameters"))
    ∧ (isContractInitOrUpdate ty = false →
      signAndSendTransactionChecked submit addr ty payload params (some tp)
        = Except.error (WalletError.preconditionViolation
            "typedParams must not be provided here"))
    ∧ (params.isEmpty = true →
      signAndSendTransactionChecked submit addr ty payload params (some tp)
        = Except.error (WalletError.preconditionViolation
            "typedParams must not be provided here")) := by
  refine ⟨?_, ?_, ?_⟩
  · intro h1 h2
    simp [signAndSendTransactionChecked, checkTypedParams, h1, h2]
  · intro h1
    simp [signAndSendTransactionChecked, checkTypedParams, h1]
  · intro h1
    simp [signAndSendTransactionChecked, checkTypedParams, h1]

/-- Witness for C4: an `Update` transaction with one parameter field and no
`typedParams` is rejected, and a plain `Transfer` with `typedParams`
supplied is rejected, whatever the wallet backend would have answered. -/
theorem c4_typed_params_precondition_witness :
    (signAndSendTransactionChecked (fun _ _ _ _ => Except.ok "txhash") "addr"
        AccountTransactionType.Update { fields := [] }
        { fields := [("amount", "1")] } none
      = Except.error (WalletError.preconditionViolation
          "typedParams must be provided for contract transactions with parameters"))
    ∧ (signAndSendTransactionChecked (fun _ _ _ _ => Except.ok "txhash") "addr"
        AccountTransactionType.Transfer { fields := [] } { fields := [] }
        (some { parameters := { fields := [] }, schema := Schema.ofType (typeSchema []) })
      = Except.error (WalletError.preconditionViolation
          "typedParams must not be provided here")) := by
  constructor
  · exact (c4_typed_params_precondition (fun _ _ _ _ => Except.ok "txhash") "addr"
      AccountTransactionType.Update { fields := [] } { fields := [("amount", "1")] }
      { parameters := { fields := [] }, schema := Schema.ofType (typeSchema []) }).1 rfl rfl
  · exact (c4_typed_params_precondition (fun _ _ _ _ => Except.ok "txhash") "addr"
      AccountTransactionType.Transfer { fields := [] } { fields := [] }
      { parameters := { fields := [] }, schema := Schema.ofType (typeSchema []) }).2.1 rfl

/-- Claim C5: if `connection.getJsonRpcClient()` throws, then
`withJsonRpcClient(connection, f)` propagates exactly that failure — for
any `f`, so `f` is never invoked — and if it returns a client `c`, then
`withJsonRpcClient(connection, f)` returns exactly `f c`, propagating any
failure of `f` unchanged. -/
theorem c5_with_json_rpc_client {T : Type} (connection : WalletConnection)
    (f g : JsonRpcClient → Except WalletError T) :
    (∀ e, connection.getJsonRpcClient = Except.error e →
      withJsonRpcClient connection f = Except.error e
        ∧ withJsonRpcClient connection f = withJsonRpcClient connection g)
    ∧ (∀ c, connection.getJsonRpcClient = Except.ok c →
      withJsonRpcClient connection f = f c) := by
  constructor
  · intro e he
    constructor
    · simp [withJsonRpcClient, he]
    · simp [withJsonRpcClient, he]
  · intro c hc
    simp [withJsonRpcClient, hc]

/-- Witness for C5: on a connection whose client resolution fails with an
`unsupportedOperation` error, `withJsonRpcClient` returns that very error
even though the supplied function always succeeds. -/
theorem c5_with_json_rpc_client_witness :
    withJsonRpcClient
      { ping := Except.ok ()
        getJsonRpcClient := Except.error (WalletError.unsupportedOperation "no rpc url")
        signAndSendTransaction := fun _ _ _ _ => Except.error (WalletError.transportError "offline")
        signMessage := fun _ _ => Except.error (WalletError.transportError "offline")
        disconnect := Except.ok () }
      (fun _ => Except.ok (0 : Nat))
      = Except.error (WalletError.unsupportedOperation "no rpc url") :=
  ((c5_with_json_rpc_client _ (fun _ => Except.ok (0 : Nat))
    (fun _ => Except.ok (1 : Nat))).1 _ rfl).1

/-- Claim C6: `moduleSchemaFromBase64('AAE=', undefined)` succeeds and
returns a record with type `'ModuleSchema'`, value exactly the two bytes
`0x00` and `0x01`, and version `undefined`. -/
theorem c6_module_schema_example :
    moduleSchemaFromBase64 "AAE=" none
      = Except.ok { type := "ModuleSchema", value := [0, 1], version := none } :=
  rfl

/-- Claim C7: for any `TypeSchema`, `binaryMessageFromHex('deadbeef', schema)`
succeeds and returns a `BinaryMessage` whose value is exactly the four
bytes `0xde 0xad 0xbe 0xef`. -/
theorem c7_binary_message_example (schema : TypeSchema) :
    binaryMessageFromHex "deadbeef" schema
      = Except.ok { type := "BinaryMessage", value := [222, 173, 190, 239], schema := schema } :=
  rfl

/-- Claim C8: for every string, `stringMessage(msg)` never fails and returns
exactly the record with type `'StringMessage'` and value `msg`; being a
total pure function of its input (like all the schema/message constructor
helpers modelled here), it performs no validation or side effects and the
same input always produces the same result. -/
theorem c8_string_message_pure (msg : String) :
    stringMessage msg = { type := "StringMessage", value := msg } :=
  rfl

/-- Claim C9: whenever `binaryMessageFromHex` succeeds, the result carries
the schema argument itself, unchanged, in its `schema` field; and
`moduleSchema(buffer, v)` carries `v` unchanged (including
`v = undefined`) in its `version` field. -/
theorem c9_frame_fields (msgHex : String) (schema : TypeSchema) (m : BinaryMessage)
    (h : binaryMessageFromHex msgHex schema = Except.ok m) :
    m.schema = schema
      ∧ ∀ (b : List Nat) (v : Option SchemaVersion), (moduleSchema b v).version = v := by
  refine ⟨?_, fun b v => rfl⟩
  unfold binaryMessageFromHex at h
  cases hm : messageAsBuffer msgHex with
  | error e =>
    rw [hm] at h
    exact Except.noConfusion h
  | ok val =>
    rw [hm] at h
    injection h with h'
    rw [← h']

/-- Witness for C9: the message built from `'deadbeef'` carries the exact
`TypeSchema` it was given. -/
theorem c9_frame_fields_witness :
    (BinaryMessage.mk "BinaryMessage" [222, 173, 190, 239] (TypeSchema.mk "TypeSchema" [0])).schema
      = TypeSchema.mk "TypeSchema" [0] :=
  (c9_frame_fields "deadbeef" (TypeSchema.mk "TypeSchema" [0])
    (BinaryMessage.mk "BinaryMessage" [222, 173, 190, 239] (TypeSchema.mk "TypeSchema" [0]))
    rfl).1

/-- Claim C10: the empty string is accepted by all three string-decoding
constructors — `moduleSchemaFromBase64('')`, `typeSchemaFromBase64('')`
and `binaryMessageFromHex('', schema)` all succeed with a zero-length
value buffer (the empty string round-trips to itself). -/
theorem c10_empty_string_accepted (v : Option SchemaVersion) (schema : TypeSchema) :
    moduleSchemaFromBase64 "" v
        = Except.ok { type := "ModuleSchema", value := [], version := v }
      ∧ typeSchemaFromBase64 "" = Except.ok { type := "TypeSchema", value := [] }
      ∧ binaryMessageFromHex "" schema
        = Except.ok { type := "BinaryMessage", value := [], schema := schema } :=
  ⟨rfl, rfl, rfl⟩
